import Mathlib

/-!
Verification development for the task-planner repository: a month-view
calendar with drag-to-select, drag-to-move and drag-to-resize gestures on
date-ranged tasks.

Shallow embedding conventions:
* Calendar dates are day-granular in the application (all task dates are
  local-midnight day cell values).  We embed a calendar day as an `Int`
  day number (days since 1970-01-01, so 1970-01-01 is day 0, a Thursday).
  JavaScript `Date` comparisons (`<=`, `>=`) on such values coincide with
  `Int` comparisons on day numbers; `date-fns` `addDays`/`differenceInDays`
  on midnight-aligned dates are `Int` addition/subtraction.
* The time filter in `Calender.tsx` works on raw millisecond timestamps
  (`getTime()`), so that part of the embedding converts day numbers to
  milliseconds explicitly.
* React `useState` state is threaded explicitly through a `CalState`
  record; each event handler becomes a function `CalState → ... → CalState`.
-/

namespace TaskPlanner

/-- Enumeration `TaskCategory` from `taskType`: `"To Do" | "In Progress" | "Review" | "Completed"`. -/
inductive TaskCategory where
  | todo
  | inProgress
  | review
  | completed
deriving DecidableEq, Repr

/-- Enumeration `TaskPriority` from `taskType`: `"P0" | "P1" | "P2"` (labelled Critical / High / Medium). -/
inductive TaskPriority where
  | p0
  | p1
  | p2
deriving DecidableEq, Repr

/-- Enumeration `TaskColor` from `taskType`, in source order:
`"blue" | "green" | "purple" | "orange" | "red" | "pink" | "indigo" | "teal"`. -/
inductive TaskColor where
  | blue
  | green
  | purple
  | orange
  | red
  | pink
  | indigo
  | teal
deriving DecidableEq, Repr

/-- Enumeration `TimeFilter` from `taskType`: `"all" | "1week" | "2weeks" | "3weeks"`. -/
inductive TimeFilter where
  | all
  | oneWeek
  | twoWeeks
  | threeWeeks
deriving DecidableEq, Repr

/-- The `Task` interface from `taskType`.  `startDate`/`endDate` are day numbers
(see the header comment). -/
structure Task where
  id : String
  name : String
  category : TaskCategory
  startDate : Int
  endDate : Int
  assignedUser : String
  priority : TaskPriority
  color : TaskColor
deriving DecidableEq, Repr

/-- The `Partial Task` argument of `updateTask` / spread `{ ...task, ...updates }`:
every present field overrides the task's field.  (`id` is in `Partial Task` too;
no caller of `updateTask` ever passes it, but we keep it for faithfulness.) -/
structure TaskUpdates where
  id : Option String := none
  name : Option String := none
  category : Option TaskCategory := none
  startDate : Option Int := none
  endDate : Option Int := none
  assignedUser : Option String := none
  priority : Option TaskPriority := none
  color : Option TaskColor := none
deriving DecidableEq, Repr

/-- JavaScript object spread `{ ...task, ...updates }` restricted to `Task` fields. -/
def mergeTask (t : Task) (u : TaskUpdates) : Task :=
  { id := u.id.getD t.id
    name := u.name.getD t.name
    category := u.category.getD t.category
    startDate := u.startDate.getD t.startDate
    endDate := u.endDate.getD t.endDate
    assignedUser := u.assignedUser.getD t.assignedUser
    priority := u.priority.getD t.priority
    color := u.color.getD t.color }

/-- Function `updateTask` from `TaskPlanner` (part_000):
`setTasks(prev => prev.map(task => task.id === taskId ? { ...task, ...updates } : task))`. -/
def updateTask (taskId : String) (u : TaskUpdates) (tasks : List Task) : List Task :=
  tasks.map fun t => if t.id = taskId then mergeTask t u else t

/-- Function `deleteTask` from `TaskPlanner` (part_000):
`setTasks(prev => prev.filter(task => task.id !== taskId))`. -/
def deleteTask (taskId : String) (tasks : List Task) : List Task :=
  tasks.filter fun t => t.id ≠ taskId

/-- Function `createTask` from `TaskPlanner` (part_000): appends the new record,
`setTasks(prev => [...prev, newTask])`.  The fresh id produced by `generateId`
is passed in as a parameter here. -/
def createTask (id name : String) (category : TaskCategory) (startDate endDate : Int)
    (assignedUser : String) (priority : TaskPriority) (color : TaskColor)
    (tasks : List Task) : List Task :=
  tasks ++ [{ id := id, name := name, category := category, startDate := startDate,
              endDate := endDate, assignedUser := assignedUser, priority := priority,
              color := color }]

/-- The resize mode `'left' | 'right'` from `Calender.tsx`. -/
inductive ResizeMode where
  | left
  | right
deriving DecidableEq, Repr

/-- The `resizingTask` state of `Calender.tsx`: the task captured at resize
start, the grabbed edge, and `originalDate` (the date of that edge at capture
time; stored by the source but never read back). -/
structure ResizingState where
  task : Task
  mode : ResizeMode
  originalDate : Int
deriving DecidableEq, Repr

/-- The `useState` state of the `Calendar` component in `Calender.tsx`,
together with the lifted `tasks` collection and `dragSelection` owned by
`TaskPlanner` (part_000) that the component reads and writes through props.
`selStart`/`selEnd`/`isSelecting` are the three fields of `dragSelection`. -/
structure CalState where
  tasks : List Task
  isDragging : Bool
  selStart : Option Int
  selEnd : Option Int
  isSelecting : Bool
  draggedTask : Option Task
  dragOffset : Int
  hoveredDay : Option Int
  resizingTask : Option ResizingState
deriving DecidableEq, Repr

/-- Handler `handleMouseDown` from `Calender.tsx`: ignored while a task drag or resize
is active; otherwise starts a selection anchored (start = end) at the pressed day. -/
def handleMouseDown (s : CalState) (day : Int) : CalState :=
  if s.draggedTask.isSome || s.resizingTask.isSome then s
  else { s with isDragging := true, selStart := some day, selEnd := some day,
                isSelecting := true }

/-- Handler `handleMouseEnter` from `Calender.tsx`.  Records the hovered day; while a
selection drag is active it renormalizes the selection from the CURRENT
`dragSelection.startDate` (not the original anchor) and the entered day; while a
resize is active it applies the guarded boundary mutation, comparing the entered
day against the capture-time task held in `resizingTask`. -/
def handleMouseEnter (s : CalState) (day : Int) : CalState :=
  let sA := { s with hoveredDay := some day }
  let sB :=
    match sA.selStart, sA.isDragging, sA.draggedTask, sA.resizingTask with
    | some st, true, none, none =>
        { sA with selStart := some (if st ≤ day then st else day),
                  selEnd := some (if st ≤ day then day else st),
                  isSelecting := true }
    | _, _, _, _ => sA
  match sB.resizingTask with
  | some r =>
      match r.mode with
      | ResizeMode.right =>
          if r.task.startDate ≤ day then
            { sB with
                tasks := updateTask r.task.id ({ endDate := some day } : TaskUpdates) sB.tasks }
          else sB
      | ResizeMode.left =>
          if day ≤ r.task.endDate then
            { sB with
                tasks := updateTask r.task.id ({ startDate := some day } : TaskUpdates) sB.tasks }
          else sB
  | none => sB

/-- Handler `handleTaskDrop` from `Calender.tsx`: duration-preserving move of the
captured `draggedTask` so that the grabbed day lands on `targetDay`. -/
def handleTaskDrop (s : CalState) (targetDay : Int) : CalState :=
  match s.draggedTask with
  | some t =>
      let taskDuration := t.endDate - t.startDate
      let newStartDate := targetDay - s.dragOffset
      { s with
          tasks := updateTask t.id
                     ({ startDate := some newStartDate,
                        endDate := some (newStartDate + taskDuration) } : TaskUpdates)
                     s.tasks }
  | none => s

/-- Handler `handleMouseUp` from `Calender.tsx`.  Returns the new state and the range
passed to `onDragSelection` (the committed selection), if any. -/
def handleMouseUp (s : CalState) : CalState × Option (Int × Int) :=
  let committed :=
    match s.isDragging, s.selStart, s.selEnd, s.draggedTask, s.resizingTask with
    | true, some a, some b, none, none => some (a, b)
    | _, _, _, _, _ => none
  let s1 :=
    match s.draggedTask, s.hoveredDay with
    | some _, some d => handleTaskDrop s d
    | _, _ => s
  ({ s1 with resizingTask := none, isDragging := false, draggedTask := none,
             hoveredDay := none }, committed)

/-- Handler `handleTaskDragStart` from `Calender.tsx`:
`dragOffset = differenceInDays(dayClicked, task.startDate)`. -/
def handleTaskDragStart (s : CalState) (t : Task) (dayClicked : Int) : CalState :=
  { s with draggedTask := some t, dragOffset := dayClicked - t.startDate }

/-- Handler `handleTaskResizeStart` from `Calender.tsx`. -/
def handleTaskResizeStart (s : CalState) (t : Task) (mode : ResizeMode) : CalState :=
  { s with
      resizingTask := some
        { task := t, mode := mode,
          originalDate := if mode = ResizeMode.right then t.endDate else t.startDate } }

/-- Day number (days since 1970-01-01) of the Gregorian civil date y-m-d,
the standard era-based civil-calendar conversion; this grounds concrete
calendar dates such as 2024-06-15 in the embedding. -/
def daysFromCivil (y m d : Int) : Int :=
  let y1 := if m ≤ 2 then y - 1 else y
  let era := y1 / 400
  let yoe := y1 - era * 400
  let mp := (m + 9) % 12
  let doy := (153 * mp + 2) / 5 + d - 1
  let doe := yoe * 365 + yoe / 4 - yoe / 100 + doy
  era * 146097 + doe - 719468

/-- Day of week of a day number, `0 = Sunday` … `6 = Saturday`
(1970-01-01, day 0, was a Thursday, hence the `+ 4`).  This is `getDay()`
of the corresponding local-midnight JavaScript `Date`. -/
def dayOfWeek (n : Int) : Int := (n + 4) % 7

/-- Library function `startOfWeek` of date-fns (default Sunday convention) at day granularity:
the Sunday on or before `n`. -/
def startOfWeek (n : Int) : Int := n - dayOfWeek n

/-- Library function `endOfWeek` of date-fns at day granularity: the Saturday on or after `n`. -/
def endOfWeek (n : Int) : Int := startOfWeek n + 6

/-- List of `n` consecutive days starting at `s`. -/
def daysFrom (s : Int) : Nat → List Int
  | 0 => []
  | n + 1 => s :: daysFrom (s + 1) n

/-- Library function `eachDayOfInterval` of date-fns at day granularity: the days from `s`
through `e` inclusive (empty when `e < s`). -/
def eachDayOfInterval (s e : Int) : List Int := daysFrom s (e - s + 1).toNat

/-- Day number of the first day of month `m` of year `y`
(`date-fns` `startOfMonth` of an anchor in that month, at day granularity). -/
def monthStart (y m : Int) : Int := daysFromCivil y m 1

/-- Day number of the last day of month `m` of year `y`
(`date-fns` `endOfMonth` at day granularity): the day before the first of
the next month. -/
def monthEnd (y m : Int) : Int :=
  (if m = 12 then daysFromCivil (y + 1) 1 1 else daysFromCivil y (m + 1) 1) - 1

/-- The `days` sequence of `Calender.tsx`:
`eachDayOfInterval({ start: startOfWeek(startOfMonth(currentDate)), end: endOfWeek(endOfMonth(currentDate)) })`. -/
def calendarDays (y m : Int) : List Int :=
  eachDayOfInterval (startOfWeek (monthStart y m)) (endOfWeek (monthEnd y m))

/-- The week-splitting loop of `Calender.tsx`:
`for (let i = 0; i < days.length; i += 7) weeks.push(days.slice(i, i + 7))`. -/
def chunks7 : List Int → List (List Int)
  | [] => []
  | a :: l => (a :: l.take 6) :: chunks7 (l.drop 6)
termination_by l => l.length
decreasing_by
  simp only [List.length_drop, List.length_cons]
  omega

/-- The `weeks` value of `Calender.tsx`: `days` split into consecutive rows of 7. -/
def calendarWeeks (y m : Int) : List (List Int) := chunks7 (calendarDays y m)

/-- Ceiling `Math.ceil` of the exact division `a / b` for `b > 0` (the source divides
two millisecond quantities and takes `Math.ceil`). -/
def ceilDiv (a b : Int) : Int := -(Int.fdiv (-a) b)

/-- Milliseconds per calendar day; converts a day number to the `getTime()`
value of the corresponding midnight `Date`. -/
def msPerDay : Int := 86400000

/-- The divisor the source actually uses in the time filter of `Calender.tsx`:
`1000 * 60 * 60 * 1000` milliseconds (= 1000 hours, not one day). -/
def filterDivisor : Int := 1000 * 60 * 60 * 1000

/-- The three filter inputs the `Calendar` component receives
(`categoryFilters`, `userFilters`, `timeFilter`). -/
structure Filters where
  categories : List TaskCategory
  users : List String
  timeFilter : TimeFilter
deriving DecidableEq, Repr

/-- The `filteredTasks` predicate of `Calender.tsx` applied to one task:
category membership, then user membership, then the time window computed as
`Math.ceil((task.startDate.getTime() - now.getTime()) / (1000*60*60*1000))`
compared against 7 / 14 / 21.  `nowMs` is `new Date().getTime()`. -/
def visibleTask (f : Filters) (nowMs : Int) (t : Task) : Bool :=
  if ¬ f.categories.contains t.category then false
  else if ¬ f.users.contains t.assignedUser then false
  else
    match f.timeFilter with
    | TimeFilter.all => true
    | TimeFilter.oneWeek =>
        decide (ceilDiv (t.startDate * msPerDay - nowMs) filterDivisor ≤ 7)
    | TimeFilter.twoWeeks =>
        decide (ceilDiv (t.startDate * msPerDay - nowMs) filterDivisor ≤ 14)
    | TimeFilter.threeWeeks =>
        decide (ceilDiv (t.startDate * msPerDay - nowMs) filterDivisor ≤ 21)

/-- The §4.2 visibility predicate as the spec words it, for comparison with
`visibleTask`: identical except that the signed distance from `now` to
`task.startDate` is measured in DAYS (divide the millisecond difference by
`msPerDay`). -/
def visibleTaskSpec (f : Filters) (nowMs : Int) (t : Task) : Bool :=
  if ¬ f.categories.contains t.category then false
  else if ¬ f.users.contains t.assignedUser then false
  else
    match f.timeFilter with
    | TimeFilter.all => true
    | TimeFilter.oneWeek =>
        decide (ceilDiv (t.startDate * msPerDay - nowMs) msPerDay ≤ 7)
    | TimeFilter.twoWeeks =>
        decide (ceilDiv (t.startDate * msPerDay - nowMs) msPerDay ≤ 14)
    | TimeFilter.threeWeeks =>
        decide (ceilDiv (t.startDate * msPerDay - nowMs) msPerDay ≤ 21)

/-- Value `filteredTasks` of `Calender.tsx`: the task list filtered by `visibleTask`. -/
def filteredTasks (f : Filters) (nowMs : Int) (tasks : List Task) : List Task :=
  tasks.filter (visibleTask f nowMs)

/-- The `weekDays` list built inside `getTasksForWeek`:
`eachDayOfInterval({ start: weekStart, end: weekStart + 6 days })`. -/
def weekDaysOf (weekStart : Int) : List Int := eachDayOfInterval weekStart (weekStart + 6)

/-- Function `getTasksForWeek` of `Calender.tsx` (applied to an already filtered list):
keeps a task iff some day of the week lies inside `[startDate, endDate]`. -/
def getTasksForWeek (filtered : List Task) (weekStart : Int) : List Task :=
  filtered.filter fun t =>
    (weekDaysOf weekStart).any fun day => decide (t.startDate ≤ day) && decide (day ≤ t.endDate)

/-- Expression `weekDays.findIndex(day => isSameDay(day, d))` from `TaskStrip` (part_001):
the index of the first occurrence of `d` in the list, or `-1` when absent. -/
def findIndexSameDay : List Int → Int → Int
  | [], _ => -1
  | a :: rest, d =>
      if a = d then 0
      else if findIndexSameDay rest d = -1 then -1 else findIndexSameDay rest d + 1

/-- The geometry `TaskStrip` (part_001) computes for one task in one week row. -/
structure Strip where
  taskStart : Int
  taskEnd : Int
  startDayIndex : Int
  endDayIndex : Int
  leftPercent : ℚ
  widthPercent : ℚ
  topOffset : Int
deriving DecidableEq, Repr

/-- The rendering computation of `TaskStrip` (part_001): clip the task to the
week (`taskStart = max(task.startDate, weekStart)`, `taskEnd = min(task.endDate,
weekDays[6])`), find the 0-based column indices, and return `none` (the strip
renders nothing) when either index is `-1`; otherwise
`leftPercent = startDayIndex / 7 * 100`,
`widthPercent = (endDayIndex - startDayIndex + 1) / 7 * 100`,
`topOffset = 25 + taskIndex * 28 + taskIndex * 3`. -/
def renderStrip (t : Task) (weekStart : Int) (taskIndex : Nat) : Option Strip :=
  let weekDays := weekDaysOf weekStart
  let weekEnd := weekDays.getD 6 0
  let taskStart := max t.startDate weekStart
  let taskEnd := min t.endDate weekEnd
  let startDayIndex := findIndexSameDay weekDays taskStart
  let endDayIndex := findIndexSameDay weekDays taskEnd
  if startDayIndex = -1 ∨ endDayIndex = -1 then none
  else
    some { taskStart := taskStart, taskEnd := taskEnd,
           startDayIndex := startDayIndex, endDayIndex := endDayIndex,
           leftPercent := (startDayIndex : ℚ) / 7 * 100,
           widthPercent := ((endDayIndex - startDayIndex + 1 : Int) : ℚ) / 7 * 100,
           topOffset := 25 + (taskIndex : Int) * 28 + (taskIndex : Int) * 3 }

/-- The `{ id, name }` user records of the static `mockUsers` directory (part_000). -/
structure User where
  id : String
  name : String
deriving DecidableEq, Repr

/-- Static directory `mockUsers` from part_000. -/
def mockUsers : List User :=
  [{ id := "1", name := "John Doe" },
   { id := "2", name := "Jane Smith" },
   { id := "3", name := "Mike Johnson" },
   { id := "4", name := "Sarah Wilson" },
   { id := "5", name := "David Brown" }]

/-- A task record as it sits in `localStorage`: JSON keeps `id`, `name`,
`category` and the two dates exactly (a `Date` serializes to its ISO timestamp
string and `new Date(iso)` restores the same instant, embedded here as the
day number passing through unchanged); `assignedUser`, `priority` and `color`
may be absent in legacy records, and a present `assignedUser` may be any
string, including the empty one. -/
structure StoredTask where
  id : String
  name : String
  category : TaskCategory
  startDate : Int
  endDate : Int
  assignedUser : Option String
  priority : Option TaskPriority
  color : Option TaskColor
deriving DecidableEq, Repr

/-- Serialization `JSON.stringify` of one task (the save effect of part_000): every field present. -/
def serializeTask (t : Task) : StoredTask :=
  { id := t.id, name := t.name, category := t.category,
    startDate := t.startDate, endDate := t.endDate,
    assignedUser := some t.assignedUser, priority := some t.priority,
    color := some t.color }

/-- The load-effect mapping of part_000:
`assignedUser: task.assignedUser || mockUsers[0].name`,
`priority: task.priority || "P1"`, `color: task.color || "blue"`.
JavaScript `||` takes the right operand when the left is absent OR falsy, so a
present-but-empty `assignedUser` string is also replaced by the default. -/
def loadTask (r : StoredTask) : Task :=
  { id := r.id, name := r.name, category := r.category,
    startDate := r.startDate, endDate := r.endDate,
    assignedUser :=
      match r.assignedUser with
      | some s => if s = "" then (mockUsers.headD { id := "", name := "" }).name else s
      | none => (mockUsers.headD { id := "", name := "" }).name,
    priority := r.priority.getD TaskPriority.p1,
    color := r.color.getD TaskColor.blue }

/-- The save effect over the whole collection. -/
def serializeTasks (tasks : List Task) : List StoredTask := tasks.map serializeTask

/-- The load effect over the whole stored collection. -/
def loadTasks (stored : List StoredTask) : List Task := stored.map loadTask

/-- One step of the Selecting normalization of `handleMouseEnter`: from the
current range `(p.1, p.2)` and the entered `day`, the new range is built from
the CURRENT `startDate` and `day` (the previous `endDate` is discarded):
`startDate = start <= end ? start : end`, `endDate = start <= end ? end : start`
with `start = p.1`, `end = day`. -/
def selStep (p : Int × Int) (day : Int) : Int × Int :=
  (if p.1 ≤ day then p.1 else day, if p.1 ≤ day then day else p.1)

/-- The selection range produced by a full Selecting gesture: `handleMouseDown`
on `anchor` (range `(anchor, anchor)`) followed by `handleMouseEnter` on each
hovered day in order. -/
def selCommit (anchor : Int) (hovers : List Int) : Int × Int :=
  hovers.foldl selStep (anchor, anchor)

/-- One resize hover step, as the resizing branch of `handleMouseEnter`
performs it on the task collection: `t0` is the task captured in
`resizingTask` at gesture start and the guards compare the hovered day with
ITS boundaries. -/
def resizeStep (t0 : Task) (mode : ResizeMode) (tasks : List Task) (day : Int) : List Task :=
  match mode with
  | ResizeMode.right =>
      if t0.startDate ≤ day then
        updateTask t0.id ({ endDate := some day } : TaskUpdates) tasks
      else tasks
  | ResizeMode.left =>
      if day ≤ t0.endDate then
        updateTask t0.id ({ startDate := some day } : TaskUpdates) tasks
      else tasks

/-- The five operations of the owning `TaskPlanner` context, at gesture
granularity, as they act on the task collection.

* `create`: a committed drag-selection (`anchor`, then the hovered days) opens
  the modal and `createTask` appends a task with the committed dates.
* `move`: `handleTaskDragStart` on the task with `taskId` at `dayClicked`,
  then a drop on `target` (`handleTaskDrop`).
* `resize`: `handleTaskResizeStart` on the task with `taskId`, then the hover
  sequence `hovers` (each a `handleMouseEnter` resize step).
* `edit`: `handleModalSave` on an existing task updates only
  name/category/assignedUser/priority/color.
* `delete`: `deleteTask`. -/
inductive Op where
  | create (id name : String) (category : TaskCategory) (anchor : Int) (hovers : List Int)
      (assignedUser : String) (priority : TaskPriority) (color : TaskColor)
  | move (taskId : String) (dayClicked target : Int)
  | resize (taskId : String) (mode : ResizeMode) (hovers : List Int)
  | edit (taskId : String) (name : String) (category : TaskCategory)
      (assignedUser : String) (priority : TaskPriority) (color : TaskColor)
  | delete (taskId : String)

/-- Effect of one operation on the task collection.

Modelled from the spec for the one piece outside `src/`: `generateId` (in
`src/lib/utils`, not provided) supplies each created task's id, and §3 states a
task's identity is "a stable unique id", so `create` is guarded on the id being
fresh.  Everything else is translated from `Calender.tsx` and part_000:

* `move` captures `draggedTask` at gesture start and mutates only at the drop,
  so the captured task equals the task currently in the collection; the drop
  applies `handleTaskDrop` with `dragOffset = dayClicked - startDate`.
* `resize` captures `resizingTask.task` at gesture start; every hover step
  guards against the CAPTURED task's opposite boundary (the source reads
  `resizingTask.task.startDate` / `.endDate`), exactly as `resizeStep` does. -/
def applyOp (tasks : List Task) : Op → List Task
  | Op.create id name category anchor hovers assignedUser priority color =>
      if tasks.any (fun t => t.id == id) then tasks
      else
        let range := selCommit anchor hovers
        createTask id name category range.1 range.2 assignedUser priority color tasks
  | Op.move taskId dayClicked target =>
      match tasks.find? (fun t => t.id == taskId) with
      | some t =>
          let offset := dayClicked - t.startDate
          let newStart := target - offset
          updateTask taskId
            ({ startDate := some newStart,
               endDate := some (newStart + (t.endDate - t.startDate)) } : TaskUpdates) tasks
      | none => tasks
  | Op.resize taskId mode hovers =>
      match tasks.find? (fun t => t.id == taskId) with
      | some t0 => hovers.foldl (resizeStep t0 mode) tasks
      | none => tasks
  | Op.edit taskId name category assignedUser priority color =>
      updateTask taskId
        ({ name := some name, category := some category, assignedUser := some assignedUser,
           priority := some priority, color := some color } : TaskUpdates) tasks
  | Op.delete taskId => deleteTask taskId tasks

/-- Run a sequence of operations from an initial collection. -/
def runOps (tasks : List Task) (ops : List Op) : List Task := ops.foldl applyOp tasks

section Theorems

/-- C10: `updateTask` keeps the collection's length and order, leaves every
task whose id differs from the given id unchanged in all fields (positionally,
via `Forall₂`), and is the identity when no task carries the id; `deleteTask`
is an order-preserving sublist containing exactly the tasks whose id differs. -/
theorem C10_update_delete_frame (taskId : String) (u : TaskUpdates) (l : List Task) :
    (updateTask taskId u l).length = l.length ∧
    List.Forall₂ (fun a b => (a.id ≠ taskId → b = a) ∧ (a.id = taskId → b = mergeTask a u))
      l (updateTask taskId u l) ∧
    ((∀ t ∈ l, t.id ≠ taskId) → updateTask taskId u l = l) ∧
    List.Sublist (deleteTask taskId l) l ∧
    (∀ t : Task, t ∈ deleteTask taskId l ↔ t ∈ l ∧ t.id ≠ taskId) := by
  refine ⟨List.length_map _ _, ?_, ?_, List.filter_sublist _, ?_⟩
  · induction l with
    | nil => simp [updateTask]
    | cons a l ih =>
        simp only [updateTask, List.map_cons] at ih ⊢
        refine List.Forall₂.cons ?_ ih
        by_cases h : a.id = taskId <;> simp [h]
  · intro h
    induction l with
    | nil => rfl
    | cons a l ih =>
        simp only [updateTask, List.map_cons]
        rw [if_neg (h a (List.mem_cons_self a l))]
        have := ih (fun t ht => h t (List.mem_cons_of_mem a ht))
        simpa [updateTask] using this
  · intro t
    simp [deleteTask, List.mem_filter]

/-- C10 witness: concrete instance of the frame facts. -/
theorem C10_update_delete_frame_witness :
    (updateTask "a" ({ name := some "renamed" } : TaskUpdates)
      [{ id := "a", name := "first", category := TaskCategory.todo, startDate := 0,
         endDate := 1, assignedUser := "John Doe", priority := TaskPriority.p1,
         color := TaskColor.blue },
       { id := "b", name := "second", category := TaskCategory.review, startDate := 2,
         endDate := 5, assignedUser := "Jane Smith", priority := TaskPriority.p0,
         color := TaskColor.red }]).length = 2 ∧
    ({ id := "b", name := "second", category := TaskCategory.review, startDate := 2,
       endDate := 5, assignedUser := "Jane Smith", priority := TaskPriority.p0,
       color := TaskColor.red } : Task) ∈
      deleteTask "a"
        [{ id := "a", name := "first", category := TaskCategory.todo, startDate := 0,
           endDate := 1, assignedUser := "John Doe", priority := TaskPriority.p1,
           color := TaskColor.blue },
         { id := "b", name := "second", category := TaskCategory.review, startDate := 2,
           endDate := 5, assignedUser := "Jane Smith", priority := TaskPriority.p0,
           color := TaskColor.red }] := by
  constructor
  · exact (C10_update_delete_frame "a" ({ name := some "renamed" } : TaskUpdates) _).1.trans
      (by decide)
  · exact ((C10_update_delete_frame "a" ({ name := some "renamed" } : TaskUpdates) _).2.2.2.2
      _).mpr ⟨by decide, by decide⟩

/-- C4: a drag-move gesture (drag start on `dayClicked`, so
`dayOffset = dayClicked - startDate`, then pointer-enter on `target` and
pointer-up) gives the grabbed task `startDate = target - dayOffset` and
`endDate = startDate + (originalEnd - originalStart)`, preserving the
duration; all other tasks are untouched. -/
theorem C4_drag_move (s : CalState) (t : Task) (dayClicked target : Int)
    (hr : s.resizingTask = none) :
    ((handleMouseUp (handleMouseEnter (handleTaskDragStart s t dayClicked) target)).1).tasks
      = updateTask t.id
          ({ startDate := some (target - (dayClicked - t.startDate)),
             endDate := some (target - (dayClicked - t.startDate) + (t.endDate - t.startDate)) }
            : TaskUpdates) s.tasks ∧
    ∀ u ∈ ((handleMouseUp (handleMouseEnter (handleTaskDragStart s t dayClicked) target)).1).tasks,
      (u.id = t.id → u.startDate = target - (dayClicked - t.startDate) ∧
        u.endDate = u.startDate + (t.endDate - t.startDate) ∧
        u.endDate - u.startDate = t.endDate - t.startDate) ∧
      (u.id ≠ t.id → u ∈ s.tasks) := by
  have h1 : ((handleMouseUp (handleMouseEnter (handleTaskDragStart s t dayClicked) target)).1).tasks
      = updateTask t.id
          ({ startDate := some (target - (dayClicked - t.startDate)),
             endDate := some (target - (dayClicked - t.startDate) + (t.endDate - t.startDate)) }
            : TaskUpdates) s.tasks := by
    cases hsel : s.selStart <;> cases hdrag : s.isDragging <;>
      simp [handleTaskDragStart, handleMouseEnter, handleMouseUp, handleTaskDrop, hr, hsel, hdrag]
  refine ⟨h1, ?_⟩
  rw [h1]
  intro u hu
  simp only [updateTask, List.mem_map] at hu
  obtain ⟨a, ha, rfl⟩ := hu
  by_cases hid : a.id = t.id
  · constructor
    · intro _
      simp only [hid, if_pos, mergeTask, Option.getD_some, Option.getD_none]
      exact ⟨trivial, trivial, by ring⟩
    · intro hne
      exfalso
      apply hne
      simp [hid, mergeTask]
  · constructor
    · intro habs
      exfalso
      apply hid
      simp [hid] at habs
    · intro _
      simpa [hid] using ha

/-- C4 witness: the spec's Scenario B, a task 2024-06-10 … 2024-06-12 grabbed
with `dayOffset = 1` (clicked 2024-06-11) and dropped on 2024-06-20 lands on
2024-06-19 … 2024-06-21. -/
theorem C4_drag_move_witness :
    daysFromCivil 2024 6 19
        = daysFromCivil 2024 6 20
          - (daysFromCivil 2024 6 11 - daysFromCivil 2024 6 10) ∧
    daysFromCivil 2024 6 21
        = daysFromCivil 2024 6 19
          + (daysFromCivil 2024 6 12 - daysFromCivil 2024 6 10) ∧
    daysFromCivil 2024 6 21 - daysFromCivil 2024 6 19
        = daysFromCivil 2024 6 12 - daysFromCivil 2024 6 10 := by
  have h := (C4_drag_move
    { tasks := [{ id := "a", name := "n", category := TaskCategory.todo,
                  startDate := daysFromCivil 2024 6 10, endDate := daysFromCivil 2024 6 12,
                  assignedUser := "John Doe", priority := TaskPriority.p1,
                  color := TaskColor.blue }],
      isDragging := false, selStart := none, selEnd := none, isSelecting := false,
      draggedTask := none, dragOffset := 0, hoveredDay := none, resizingTask := none }
    { id := "a", name := "n", category := TaskCategory.todo,
      startDate := daysFromCivil 2024 6 10, endDate := daysFromCivil 2024 6 12,
      assignedUser := "John Doe", priority := TaskPriority.p1, color := TaskColor.blue }
    (daysFromCivil 2024 6 11) (daysFromCivil 2024 6 20) rfl).2
    { id := "a", name := "n", category := TaskCategory.todo,
      startDate := daysFromCivil 2024 6 19, endDate := daysFromCivil 2024 6 21,
      assignedUser := "John Doe", priority := TaskPriority.p1, color := TaskColor.blue }
    (by decide) |>.1 (by decide)
  exact ⟨by simpa using h.1, by simpa using h.2.1, by simpa using h.2.2⟩

/-- The selection fold keeps its two components ordered. -/
lemma selFold_le (hovers : List Int) :
    ∀ p : Int × Int, p.1 ≤ p.2 → (hovers.foldl selStep p).1 ≤ (hovers.foldl selStep p).2 := by
  induction hovers with
  | nil => intro p hp; simpa using hp
  | cons d rest ih =>
      intro p hp
      simp only [List.foldl_cons]
      apply ih
      by_cases h : p.1 ≤ d
      · simp [selStep, h]
      · simp [selStep, h]
        omega

/-- The committed selection range is always ordered. -/
lemma selCommit_le (anchor : Int) (hovers : List Int) :
    (selCommit anchor hovers).1 ≤ (selCommit anchor hovers).2 :=
  selFold_le hovers (anchor, anchor) le_rfl

/-- While a selection drag is active (`isDragging`, a current range, no task
drag, no resize), a sequence of pointer-enters folds `selStep` over the
range and touches nothing else. -/
lemma selecting_fold (hovers : List Int) (s : CalState) (p : Int × Int)
    (h1 : s.isDragging = true) (h2 : s.selStart = some p.1) (h3 : s.selEnd = some p.2)
    (h4 : s.draggedTask = none) (h5 : s.resizingTask = none) :
    (hovers.foldl handleMouseEnter s).isDragging = true ∧
    (hovers.foldl handleMouseEnter s).selStart = some (hovers.foldl selStep p).1 ∧
    (hovers.foldl handleMouseEnter s).selEnd = some (hovers.foldl selStep p).2 ∧
    (hovers.foldl handleMouseEnter s).draggedTask = none ∧
    (hovers.foldl handleMouseEnter s).resizingTask = none ∧
    (hovers.foldl handleMouseEnter s).tasks = s.tasks := by
  induction hovers generalizing s p with
  | nil => exact ⟨h1, by simpa using h2, by simpa using h3, h4, h5, rfl⟩
  | cons d rest ih =>
      simp only [List.foldl_cons]
      have := ih (handleMouseEnter s d) (selStep p d)
        (by simp [handleMouseEnter, selStep, h1, h2, h3, h4, h5])
        (by simp [handleMouseEnter, selStep, h1, h2, h3, h4, h5])
        (by simp [handleMouseEnter, selStep, h1, h2, h3, h4, h5])
        (by simp [handleMouseEnter, selStep, h1, h2, h3, h4, h5])
        (by simp [handleMouseEnter, selStep, h1, h2, h3, h4, h5])
      refine ⟨this.1, this.2.1, this.2.2.1, this.2.2.2.1, this.2.2.2.2.1, ?_⟩
      rw [this.2.2.2.2.2]
      simp [handleMouseEnter, h1, h2, h3, h4, h5]

/-- C3 counterexample: the claim predicts that dragging from anchor
2024-06-15 through 2024-06-14 and 2024-06-13 to last hovered day 2024-06-12
commits `[min(anchor, last), max(anchor, last)] = [2024-06-12, 2024-06-15]`,
but the code re-normalizes from the CURRENT `startDate` instead of the anchor
and commits `[2024-06-12, 2024-06-13]`. -/
theorem C3_selection_counterexample :
    (handleMouseUp (List.foldl handleMouseEnter
        (handleMouseDown
          { tasks := [], isDragging := false, selStart := none, selEnd := none,
            isSelecting := false, draggedTask := none, dragOffset := 0,
            hoveredDay := none, resizingTask := none }
          (daysFromCivil 2024 6 15))
        [daysFromCivil 2024 6 14, daysFromCivil 2024 6 13, daysFromCivil 2024 6 12])).2
      = some (daysFromCivil 2024 6 12, daysFromCivil 2024 6 13) ∧
    (some (daysFromCivil 2024 6 12, daysFromCivil 2024 6 13) : Option (Int × Int))
      ≠ some (min (daysFromCivil 2024 6 15) (daysFromCivil 2024 6 12),
              max (daysFromCivil 2024 6 15) (daysFromCivil 2024 6 12)) := by
  constructor
  · decide
  · decide

/-- C3 amended: during a Selecting gesture each pointer-enter of day `d`
replaces the range `[s, e]` by `[min(s, d), max(s, d)]` built from the CURRENT
`startDate` `s` (which is the anchor only initially), so the committed range is
the left fold of that step over the hovered days and can depend on intermediate
hovered days; the range stays ordered, and pointer-up commits exactly the
folded range (a backward selection 2024-06-15 → 2024-06-12 commits
`[2024-06-12, 2024-06-15]` when 2024-06-12 is the first day entered). -/
theorem C3_selection_amended (s : CalState) (anchor : Int) (hovers : List Int)
    (h4 : s.draggedTask = none) (h5 : s.resizingTask = none) :
    (List.foldl handleMouseEnter (handleMouseDown s anchor) hovers).selStart
      = some (selCommit anchor hovers).1 ∧
    (List.foldl handleMouseEnter (handleMouseDown s anchor) hovers).selEnd
      = some (selCommit anchor hovers).2 ∧
    (selCommit anchor hovers).1 ≤ (selCommit anchor hovers).2 ∧
    (handleMouseUp (List.foldl handleMouseEnter (handleMouseDown s anchor) hovers)).2
      = some (selCommit anchor hovers) := by
  have hdown : handleMouseDown s anchor
      = { s with isDragging := true, selStart := some anchor, selEnd := some anchor,
                 isSelecting := true } := by
    simp [handleMouseDown, h4, h5]
  have h := selecting_fold hovers (handleMouseDown s anchor) (anchor, anchor)
    (by rw [hdown]) (by rw [hdown]) (by rw [hdown]) (by rw [hdown]; exact h4)
    (by rw [hdown]; exact h5)
  refine ⟨h.2.1, h.2.2.1, selCommit_le anchor hovers, ?_⟩
  simp only [handleMouseUp, h.1, h.2.1, h.2.2.1, h.2.2.2.1, h.2.2.2.2.1]
  rfl

/-- C3 amended witness: the backward selection of Scenario D done with a single
pointer-enter (anchor 2024-06-15, directly enter 2024-06-12) commits
`[2024-06-12, 2024-06-15]`. -/
theorem C3_selection_amended_witness :
    (handleMouseUp (List.foldl handleMouseEnter
        (handleMouseDown
          { tasks := [], isDragging := false, selStart := none, selEnd := none,
            isSelecting := false, draggedTask := none, dragOffset := 0,
            hoveredDay := none, resizingTask := none }
          (daysFromCivil 2024 6 15))
        [daysFromCivil 2024 6 12])).2
      = some (daysFromCivil 2024 6 12, daysFromCivil 2024 6 15) := by
  have h := (C3_selection_amended
    { tasks := [], isDragging := false, selStart := none, selEnd := none,
      isSelecting := false, draggedTask := none, dragOffset := 0,
      hoveredDay := none, resizingTask := none }
    (daysFromCivil 2024 6 15) [daysFromCivil 2024 6 12] rfl rfl).2.2.2
  rw [h]
  decide

/-- C5 counterexample: with a DraggingTask gesture active (task
2024-06-10 … 2024-06-12 grabbed with `dayOffset = 0`), a pointer-enter of
2024-06-20 leaves the task collection exactly as it was; the collection the
claim predicts (the task moved to `newStart = day - dayOffset = 2024-06-20`,
`newEnd = 2024-06-22`) is NOT produced. -/
theorem C5_enter_counterexample :
    (handleMouseEnter
        { tasks := [{ id := "a", name := "n", category := TaskCategory.todo,
                      startDate := daysFromCivil 2024 6 10,
                      endDate := daysFromCivil 2024 6 12,
                      assignedUser := "John Doe", priority := TaskPriority.p1,
                      color := TaskColor.blue }],
          isDragging := false, selStart := none, selEnd := none, isSelecting := false,
          draggedTask := some { id := "a", name := "n", category := TaskCategory.todo,
                                startDate := daysFromCivil 2024 6 10,
                                endDate := daysFromCivil 2024 6 12,
                                assignedUser := "John Doe", priority := TaskPriority.p1,
                                color := TaskColor.blue },
          dragOffset := 0, hoveredDay := none, resizingTask := none }
        (daysFromCivil 2024 6 20)).tasks
      = [{ id := "a", name := "n", category := TaskCategory.todo,
           startDate := daysFromCivil 2024 6 10, endDate := daysFromCivil 2024 6 12,
           assignedUser := "John Doe", priority := TaskPriority.p1,
           color := TaskColor.blue }] ∧
    [({ id := "a", name := "n", category := TaskCategory.todo,
        startDate := daysFromCivil 2024 6 10, endDate := daysFromCivil 2024 6 12,
        assignedUser := "John Doe", priority := TaskPriority.p1,
        color := TaskColor.blue } : Task)]
      ≠ [{ id := "a", name := "n", category := TaskCategory.todo,
           startDate := daysFromCivil 2024 6 20, endDate := daysFromCivil 2024 6 22,
           assignedUser := "John Doe", priority := TaskPriority.p1,
           color := TaskColor.blue }] := by
  constructor
  · decide
  · decide

/-- C5 amended: while the gesture state is DraggingTask (and no resize is
active), a pointer-enter applies NO task mutation — it only records the
hovered day; the move mutation `newStart = lastHoveredDay - dayOffset`,
`newEnd = newStart + (originalEnd - originalStart)` is applied once, at
pointer-up, by `handleTaskDrop` on the last hovered day. -/
theorem C5_drag_enter_defers (s : CalState) (t : Task) (day : Int)
    (hd : s.draggedTask = some t) (hr : s.resizingTask = none) :
    (handleMouseEnter s day).tasks = s.tasks ∧
    (handleMouseEnter s day).hoveredDay = some day ∧
    ∀ d : Int, s.hoveredDay = some d →
      ((handleMouseUp s).1).tasks
        = updateTask t.id
            ({ startDate := some (d - s.dragOffset),
               endDate := some (d - s.dragOffset + (t.endDate - t.startDate)) }
              : TaskUpdates) s.tasks := by
  refine ⟨?_, ?_, ?_⟩
  · cases hsel : s.selStart <;> cases hdrag : s.isDragging <;>
      simp [handleMouseEnter, hd, hr, hsel, hdrag]
  · cases hsel : s.selStart <;> cases hdrag : s.isDragging <;>
      simp [handleMouseEnter, hd, hr, hsel, hdrag]
  · intro d hday
    simp [handleMouseUp, handleTaskDrop, hd, hday]

/-- C5 amended witness: concrete drag of the 2024-06-10 … 2024-06-12 task with
`dayOffset = 0` — entering 2024-06-20 leaves the collection unchanged, and the
pointer-up after a recorded hover of 2024-06-20 moves the task to
2024-06-20 … 2024-06-22. -/
theorem C5_drag_enter_defers_witness :
    (handleMouseEnter
        { tasks := [{ id := "a", name := "n", category := TaskCategory.todo,
                      startDate := daysFromCivil 2024 6 10,
                      endDate := daysFromCivil 2024 6 12,
                      assignedUser := "John Doe", priority := TaskPriority.p1,
                      color := TaskColor.blue }],
          isDragging := false, selStart := none, selEnd := none, isSelecting := false,
          draggedTask := some { id := "a", name := "n", category := TaskCategory.todo,
                                startDate := daysFromCivil 2024 6 10,
                                endDate := daysFromCivil 2024 6 12,
                                assignedUser := "John Doe", priority := TaskPriority.p1,
                                color := TaskColor.blue },
          dragOffset := 0, hoveredDay := some (daysFromCivil 2024 6 20),
          resizingTask := none }
        (daysFromCivil 2024 6 20)).tasks
      = [{ id := "a", name := "n", category := TaskCategory.todo,
           startDate := daysFromCivil 2024 6 10, endDate := daysFromCivil 2024 6 12,
           assignedUser := "John Doe", priority := TaskPriority.p1,
           color := TaskColor.blue }] ∧
    ((handleMouseUp
        { tasks := [{ id := "a", name := "n", category := TaskCategory.todo,
                      startDate := daysFromCivil 2024 6 10,
                      endDate := daysFromCivil 2024 6 12,
                      assignedUser := "John Doe", priority := TaskPriority.p1,
                      color := TaskColor.blue }],
          isDragging := false, selStart := none, selEnd := none, isSelecting := false,
          draggedTask := some { id := "a", name := "n", category := TaskCategory.todo,
                                startDate := daysFromCivil 2024 6 10,
                                endDate := daysFromCivil 2024 6 12,
                                assignedUser := "John Doe", priority := TaskPriority.p1,
                                color := TaskColor.blue },
          dragOffset := 0, hoveredDay := some (daysFromCivil 2024 6 20),
          resizingTask := none }).1).tasks
      = [{ id := "a", name := "n", category := TaskCategory.todo,
           startDate := daysFromCivil 2024 6 20, endDate := daysFromCivil 2024 6 22,
           assignedUser := "John Doe", priority := TaskPriority.p1,
           color := TaskColor.blue }] := by
  have h := C5_drag_enter_defers
    { tasks := [{ id := "a", name := "n", category := TaskCategory.todo,
                  startDate := daysFromCivil 2024 6 10, endDate := daysFromCivil 2024 6 12,
                  assignedUser := "John Doe", priority := TaskPriority.p1,
                  color := TaskColor.blue }],
      isDragging := false, selStart := none, selEnd := none, isSelecting := false,
      draggedTask := some { id := "a", name := "n", category := TaskCategory.todo,
                            startDate := daysFromCivil 2024 6 10,
                            endDate := daysFromCivil 2024 6 12,
                            assignedUser := "John Doe", priority := TaskPriority.p1,
                            color := TaskColor.blue },
      dragOffset := 0, hoveredDay := some (daysFromCivil 2024 6 20),
      resizingTask := none }
    { id := "a", name := "n", category := TaskCategory.todo,
      startDate := daysFromCivil 2024 6 10, endDate := daysFromCivil 2024 6 12,
      assignedUser := "John Doe", priority := TaskPriority.p1, color := TaskColor.blue }
    (daysFromCivil 2024 6 20) rfl rfl
  refine ⟨h.1.trans (by decide), ?_⟩
  rw [h.2.2 (daysFromCivil 2024 6 20) rfl]
  decide

/-- Membership in an updated collection comes from a member of the original. -/
lemma updateTask_mem {taskId : String} {u : TaskUpdates} {ts : List Task} {v : Task}
    (hv : v ∈ updateTask taskId u ts) :
    ∃ a, a ∈ ts ∧ v = if a.id = taskId then mergeTask a u else a := by
  simp only [updateTask, List.mem_map] at hv
  obtain ⟨a, ha, h⟩ := hv
  exact ⟨a, ha, h.symm⟩

/-- One resize hover step keeps `startDate ≤ endDate` for every task and keeps
the captured edge of every task carrying the resized id unchanged. -/
lemma resizeStep_pres (t0 : Task) (mode : ResizeMode) (ts : List Task) (day : Int)
    (hinv : ∀ u ∈ ts, u.startDate ≤ u.endDate)
    (haux : ∀ u ∈ ts, u.id = t0.id →
      (mode = ResizeMode.right → u.startDate = t0.startDate) ∧
      (mode = ResizeMode.left → u.endDate = t0.endDate)) :
    (∀ u ∈ resizeStep t0 mode ts day, u.startDate ≤ u.endDate) ∧
    (∀ u ∈ resizeStep t0 mode ts day, u.id = t0.id →
      (mode = ResizeMode.right → u.startDate = t0.startDate) ∧
      (mode = ResizeMode.left → u.endDate = t0.endDate)) := by
  cases mode with
  | right =>
      unfold resizeStep
      by_cases h : t0.startDate ≤ day
      · simp only [if_pos h]
        constructor
        · intro u hu
          obtain ⟨a, ha, rfl⟩ := updateTask_mem hu
          by_cases hid : a.id = t0.id
          · simp only [hid, if_pos, mergeTask, Option.getD_some, Option.getD_none]
            rw [(haux a ha hid).1 rfl]
            exact h
          · rw [if_neg hid]
            exact hinv a ha
        · intro u hu hid
          obtain ⟨a, ha, rfl⟩ := updateTask_mem hu
          by_cases hida : a.id = t0.id
          · simp only [hida, if_pos, mergeTask, Option.getD_some, Option.getD_none]
            exact ⟨fun _ => (haux a ha hida).1 rfl, fun habs => absurd habs (by simp)⟩
          · rw [if_neg hida] at hid ⊢
            exact ⟨fun _ => (haux a ha hid).1 rfl, (haux a ha hid).2⟩
      · simp only [if_neg h]
        exact ⟨hinv, fun u hu hid =>
          ⟨fun _ => (haux u hu hid).1 rfl, (haux u hu hid).2⟩⟩
  | left =>
      unfold resizeStep
      by_cases h : day ≤ t0.endDate
      · simp only [if_pos h]
        constructor
        · intro u hu
          obtain ⟨a, ha, rfl⟩ := updateTask_mem hu
          by_cases hid : a.id = t0.id
          · simp only [hid, if_pos, mergeTask, Option.getD_some, Option.getD_none]
            rw [(haux a ha hid).2 rfl]
            exact h
          · rw [if_neg hid]
            exact hinv a ha
        · intro u hu hid
          obtain ⟨a, ha, rfl⟩ := updateTask_mem hu
          by_cases hida : a.id = t0.id
          · simp only [hida, if_pos, mergeTask, Option.getD_some, Option.getD_none]
            exact ⟨fun habs => absurd habs (by simp), fun _ => (haux a ha hida).2 rfl⟩
          · rw [if_neg hida] at hid ⊢
            exact ⟨(haux a ha hid).1, fun _ => (haux a ha hid).2 rfl⟩
      · simp only [if_neg h]
        exact ⟨hinv, fun u hu hid =>
          ⟨(haux u hu hid).1, fun _ => (haux u hu hid).2 rfl⟩⟩

/-- With a resize gesture active, a pointer-enter acts on the collection
exactly as `resizeStep` of the captured task and mode. -/
lemma handleMouseEnter_resizing (s : CalState) (r : ResizingState) (day : Int)
    (hres : s.resizingTask = some r) :
    (handleMouseEnter s day).tasks = resizeStep r.task r.mode s.tasks day := by
  cases hmode : r.mode <;> cases hsel : s.selStart <;> cases hdrag : s.isDragging <;>
    cases hdt : s.draggedTask <;>
      (simp only [handleMouseEnter, resizeStep, hres, hsel, hdrag, hdt, hmode]
       split <;> rfl)

/-- C6: during a Resizing gesture, hovering a day that fails the edge guard
(before the start for the end edge; after the end for the start edge) applies
no mutation — the collection is exactly unchanged — and any hover at all keeps
`startDate ≤ endDate` for every task, given the gesture invariants that all
tasks satisfy the date invariant and that the captured opposite edge still
matches the collection (which holds throughout a gesture because a right
resize never writes `startDate` and a left resize never writes `endDate`). -/
theorem C6_resize_guard (s : CalState) (r : ResizingState) (day : Int)
    (hres : s.resizingTask = some r) :
    ((r.mode = ResizeMode.right → day < r.task.startDate →
        (handleMouseEnter s day).tasks = s.tasks) ∧
     (r.mode = ResizeMode.left → r.task.endDate < day →
        (handleMouseEnter s day).tasks = s.tasks)) ∧
    ((∀ u ∈ s.tasks, u.startDate ≤ u.endDate) →
     (∀ u ∈ s.tasks, u.id = r.task.id →
        (r.mode = ResizeMode.right → u.startDate = r.task.startDate) ∧
        (r.mode = ResizeMode.left → u.endDate = r.task.endDate)) →
     ∀ u ∈ (handleMouseEnter s day).tasks, u.startDate ≤ u.endDate) := by
  rw [handleMouseEnter_resizing s r day hres]
  refine ⟨⟨?_, ?_⟩, ?_⟩
  · intro hmode hday
    rw [hmode]
    simp only [resizeStep]
    rw [if_neg (by omega)]
  · intro hmode hday
    rw [hmode]
    simp only [resizeStep]
    rw [if_neg (by omega)]
  · intro hinv haux
    exact (resizeStep_pres r.task r.mode s.tasks day hinv haux).1

/-- C6 witness: the spec's Scenario C — a task 2024-06-10 … 2024-06-14 being
resized from the right edge, hovering 2024-06-08 (before its own start),
stays exactly 2024-06-10 … 2024-06-14. -/
theorem C6_resize_guard_witness :
    (handleMouseEnter
        { tasks := [{ id := "a", name := "n", category := TaskCategory.todo,
                      startDate := daysFromCivil 2024 6 10,
                      endDate := daysFromCivil 2024 6 14,
                      assignedUser := "John Doe", priority := TaskPriority.p1,
                      color := TaskColor.blue }],
          isDragging := false, selStart := none, selEnd := none, isSelecting := false,
          draggedTask := none, dragOffset := 0, hoveredDay := none,
          resizingTask := some
            { task := { id := "a", name := "n", category := TaskCategory.todo,
                        startDate := daysFromCivil 2024 6 10,
                        endDate := daysFromCivil 2024 6 14,
                        assignedUser := "John Doe", priority := TaskPriority.p1,
                        color := TaskColor.blue },
              mode := ResizeMode.right, originalDate := daysFromCivil 2024 6 14 } }
        (daysFromCivil 2024 6 8)).tasks
      = [{ id := "a", name := "n", category := TaskCategory.todo,
           startDate := daysFromCivil 2024 6 10, endDate := daysFromCivil 2024 6 14,
           assignedUser := "John Doe", priority := TaskPriority.p1,
           color := TaskColor.blue }] := by
  have h := (C6_resize_guard
    { tasks := [{ id := "a", name := "n", category := TaskCategory.todo,
                  startDate := daysFromCivil 2024 6 10, endDate := daysFromCivil 2024 6 14,
                  assignedUser := "John Doe", priority := TaskPriority.p1,
                  color := TaskColor.blue }],
      isDragging := false, selStart := none, selEnd := none, isSelecting := false,
      draggedTask := none, dragOffset := 0, hoveredDay := none,
      resizingTask := some
        { task := { id := "a", name := "n", category := TaskCategory.todo,
                    startDate := daysFromCivil 2024 6 10,
                    endDate := daysFromCivil 2024 6 14,
                    assignedUser := "John Doe", priority := TaskPriority.p1,
                    color := TaskColor.blue },
          mode := ResizeMode.right, originalDate := daysFromCivil 2024 6 14 } }
    { task := { id := "a", name := "n", category := TaskCategory.todo,
                startDate := daysFromCivil 2024 6 10, endDate := daysFromCivil 2024 6 14,
                assignedUser := "John Doe", priority := TaskPriority.p1,
                color := TaskColor.blue },
      mode := ResizeMode.right, originalDate := daysFromCivil 2024 6 14 }
    (daysFromCivil 2024 6 8) rfl).1.1 rfl (by decide)
  exact h

/-- An update that does not touch `id` (no caller ever does) preserves the id
sequence of the collection. -/
lemma updateTask_map_id (taskId : String) (u : TaskUpdates) (ts : List Task)
    (h : u.id = none) :
    (updateTask taskId u ts).map Task.id = ts.map Task.id := by
  simp only [updateTask, List.map_map]
  apply List.map_congr_left
  intro a _
  by_cases hid : a.id = taskId
  · simp [hid, mergeTask, h]
  · simp [hid]

/-- A resize hover step never changes any task's id. -/
lemma resizeStep_map_id (t0 : Task) (mode : ResizeMode) (ts : List Task) (day : Int) :
    (resizeStep t0 mode ts day).map Task.id = ts.map Task.id := by
  cases mode with
  | right =>
      simp only [resizeStep]
      split
      · exact updateTask_map_id _ _ _ rfl
      · rfl
  | left =>
      simp only [resizeStep]
      split
      · exact updateTask_map_id _ _ _ rfl
      · rfl

/-- A whole resize hover sequence keeps the date invariant and the id sequence. -/
lemma resizeFold_pres (t0 : Task) (mode : ResizeMode) (hovers : List Int) :
    ∀ ts : List Task,
      (∀ u ∈ ts, u.startDate ≤ u.endDate) →
      (∀ u ∈ ts, u.id = t0.id →
        (mode = ResizeMode.right → u.startDate = t0.startDate) ∧
        (mode = ResizeMode.left → u.endDate = t0.endDate)) →
      (∀ u ∈ hovers.foldl (resizeStep t0 mode) ts, u.startDate ≤ u.endDate) ∧
      (hovers.foldl (resizeStep t0 mode) ts).map Task.id = ts.map Task.id := by
  induction hovers with
  | nil => exact fun ts hinv _ => ⟨hinv, rfl⟩
  | cons d rest ih =>
      intro ts hinv haux
      simp only [List.foldl_cons]
      have hstep := resizeStep_pres t0 mode ts d hinv haux
      obtain ⟨h1, h2⟩ := ih (resizeStep t0 mode ts d) hstep.1 hstep.2
      exact ⟨h1, h2.trans (resizeStep_map_id t0 mode ts d)⟩

/-- The collection invariant of the operation machine: every task has ordered
dates and the ids are pairwise distinct (§3: identity is a stable unique id). -/
def TasksInv (ts : List Task) : Prop :=
  (∀ u ∈ ts, u.startDate ≤ u.endDate) ∧ (ts.map Task.id).Nodup

/-- Every operation preserves the collection invariant. -/
lemma applyOp_pres (ts : List Task) (op : Op) (h : TasksInv ts) : TasksInv (applyOp ts op) := by
  obtain ⟨hinv, hnd⟩ := h
  cases op with
  | create id name category anchor hovers assignedUser priority color =>
      simp only [applyOp]
      by_cases hany : (ts.any fun t => t.id == id) = true
      · rw [if_pos hany]
        exact ⟨hinv, hnd⟩
      · rw [if_neg hany]
        constructor
        · intro u hu
          simp only [createTask, List.mem_append, List.mem_singleton] at hu
          rcases hu with h1 | h1
          · exact hinv u h1
          · rw [h1]
            exact selCommit_le anchor hovers
        · simp only [createTask, List.map_append, List.map_cons, List.map_nil]
          rw [List.nodup_append]
          refine ⟨hnd, List.nodup_singleton id, ?_⟩
          intro x hx hx1
          simp only [List.mem_singleton] at hx1
          subst hx1
          simp only [List.mem_map] at hx
          obtain ⟨a, ha, hid⟩ := hx
          simp only [List.any_eq_true, not_exists, not_and] at hany
          exact absurd (by simpa using hid) (by simpa using hany a ha)
  | move taskId dayClicked target =>
      simp only [applyOp]
      cases hf : ts.find? (fun t => t.id == taskId) with
      | none => exact ⟨hinv, hnd⟩
      | some t =>
          have htmem := List.mem_of_find?_eq_some hf
          have hinvt := hinv t htmem
          constructor
          · intro u hu
            obtain ⟨a, ha, rfl⟩ := updateTask_mem hu
            by_cases hid : a.id = taskId
            · simp only [hid, if_pos, mergeTask, Option.getD_some, Option.getD_none]
              omega
            · rw [if_neg hid]
              exact hinv a ha
          · rw [updateTask_map_id _ _ _ rfl]
            exact hnd
  | resize taskId mode hovers =>
      simp only [applyOp]
      cases hf : ts.find? (fun t => t.id == taskId) with
      | none => exact ⟨hinv, hnd⟩
      | some t0 =>
          have ht0mem := List.mem_of_find?_eq_some hf
          have haux : ∀ u ∈ ts, u.id = t0.id →
              (mode = ResizeMode.right → u.startDate = t0.startDate) ∧
              (mode = ResizeMode.left → u.endDate = t0.endDate) := by
            intro u hu hid
            have : u = t0 := List.inj_on_of_nodup_map hnd hu ht0mem hid
            rw [this]
            exact ⟨fun _ => rfl, fun _ => rfl⟩
          have hfold := resizeFold_pres t0 mode hovers ts hinv haux
          exact ⟨hfold.1, hfold.2 ▸ hnd⟩
  | edit taskId name category assignedUser priority color =>
      simp only [applyOp]
      constructor
      · intro u hu
        obtain ⟨a, ha, rfl⟩ := updateTask_mem hu
        by_cases hid : a.id = taskId
        · simp only [hid, if_pos, mergeTask, Option.getD_some, Option.getD_none]
          exact hinv a ha
        · rw [if_neg hid]
          exact hinv a ha
      · rw [updateTask_map_id _ _ _ rfl]
        exact hnd
  | delete taskId =>
      constructor
      · intro u hu
        exact hinv u (List.mem_of_mem_filter hu)
      · exact List.Nodup.sublist (List.Sublist.map Task.id (List.filter_sublist ts)) hnd

/-- Operation sequences preserve the collection invariant. -/
lemma runOps_pres (ops : List Op) : ∀ ts : List Task, TasksInv ts → TasksInv (runOps ts ops) := by
  induction ops with
  | nil => exact fun ts h => h
  | cons op rest ih =>
      intro ts h
      simp only [runOps, List.foldl_cons]
      exact ih _ (applyOp_pres ts op h)

/-- C1: from any initial collection whose tasks have `startDate ≤ endDate` and
pairwise-distinct ids (the program starts from `[]`), after any sequence of
create-from-committed-selection, drag-move, resize, edit and delete
operations, every task still satisfies `startDate ≤ endDate`. -/
theorem C1_start_le_end (init : List Task) (ops : List Op)
    (h1 : ∀ t ∈ init, t.startDate ≤ t.endDate)
    (h2 : (init.map Task.id).Nodup) :
    ∀ t ∈ runOps init ops, t.startDate ≤ t.endDate :=
  fun t ht => (runOps_pres ops init ⟨h1, h2⟩).1 t ht

/-- C1 witness: starting from the empty collection, create a task by a
backward selection (anchor 2024-06-15, hover 2024-06-12), resize it from the
right edge through a rejected hover (2024-06-06) and an accepted one
(2024-06-21), then drag-move it; the resulting task has ordered dates. -/
theorem C1_start_le_end_witness :
    ({ id := "a", name := "n", category := TaskCategory.todo,
       startDate := daysFromCivil 2024 6 26, endDate := daysFromCivil 2024 7 5,
       assignedUser := "John Doe", priority := TaskPriority.p1,
       color := TaskColor.blue } : Task).startDate
      ≤ ({ id := "a", name := "n", category := TaskCategory.todo,
           startDate := daysFromCivil 2024 6 26, endDate := daysFromCivil 2024 7 5,
           assignedUser := "John Doe", priority := TaskPriority.p1,
           color := TaskColor.blue } : Task).endDate := by
  exact C1_start_le_end []
    [Op.create "a" "n" TaskCategory.todo (daysFromCivil 2024 6 15) [daysFromCivil 2024 6 12]
       "John Doe" TaskPriority.p1 TaskColor.blue,
     Op.resize "a" ResizeMode.right [daysFromCivil 2024 6 6, daysFromCivil 2024 6 21],
     Op.move "a" (daysFromCivil 2024 6 12) (daysFromCivil 2024 6 26)]
    (by simp) (by simp) _ (by decide)

/-- C2: the time-window branch of `filteredTasks` divides the millisecond
difference by `1000 * 60 * 60 * 1000` (1000 hours) instead of by one day, so
with the "1week" window active and every category/user active, a task starting
30 days after `now` (now = 2024-06-01 midnight, start = 2024-07-01) is
visible in the code even though its signed day distance is 30 > 7; the
spec-faithful predicate (same conjunction, distance measured in days) hides
it. -/
theorem C2_time_filter_divergence :
    visibleTask
        { categories := [TaskCategory.todo, TaskCategory.inProgress, TaskCategory.review,
                         TaskCategory.completed],
          users := ["John Doe", "Jane Smith", "Mike Johnson", "Sarah Wilson", "David Brown"],
          timeFilter := TimeFilter.oneWeek }
        (daysFromCivil 2024 6 1 * msPerDay)
        { id := "a", name := "n", category := TaskCategory.todo,
          startDate := daysFromCivil 2024 7 1, endDate := daysFromCivil 2024 7 2,
          assignedUser := "John Doe", priority := TaskPriority.p1,
          color := TaskColor.blue }
      = true ∧
    ceilDiv (daysFromCivil 2024 7 1 * msPerDay - daysFromCivil 2024 6 1 * msPerDay) msPerDay
      = 30 ∧
    visibleTaskSpec
        { categories := [TaskCategory.todo, TaskCategory.inProgress, TaskCategory.review,
                         TaskCategory.completed],
          users := ["John Doe", "Jane Smith", "Mike Johnson", "Sarah Wilson", "David Brown"],
          timeFilter := TimeFilter.oneWeek }
        (daysFromCivil 2024 6 1 * msPerDay)
        { id := "a", name := "n", category := TaskCategory.todo,
          startDate := daysFromCivil 2024 7 1, endDate := daysFromCivil 2024 7 2,
          assignedUser := "John Doe", priority := TaskPriority.p1,
          color := TaskColor.blue }
      = false := by
  refine ⟨by decide, by decide, by decide⟩

/-- C9 counterexample: a task whose `assignedUser` is the empty string does
not survive the serialize/load round trip — JavaScript `||` replaces any falsy
value, not only a missing field, so the loaded task carries the first
directory user's name instead. -/
theorem C9_roundtrip_counterexample :
    loadTasks (serializeTasks
        [{ id := "a", name := "n", category := TaskCategory.todo, startDate := 0,
           endDate := 1, assignedUser := "", priority := TaskPriority.p1,
           color := TaskColor.blue }])
      ≠ [{ id := "a", name := "n", category := TaskCategory.todo, startDate := 0,
           endDate := 1, assignedUser := "", priority := TaskPriority.p1,
           color := TaskColor.blue }] ∧
    loadTasks (serializeTasks
        [{ id := "a", name := "n", category := TaskCategory.todo, startDate := 0,
           endDate := 1, assignedUser := "", priority := TaskPriority.p1,
           color := TaskColor.blue }])
      = [{ id := "a", name := "n", category := TaskCategory.todo, startDate := 0,
           endDate := 1, assignedUser := "John Doe", priority := TaskPriority.p1,
           color := TaskColor.blue }] := by
  refine ⟨by decide, by decide⟩

/-- C9 amended: serializing then loading restores every task exactly —
provided each task's `assignedUser` is non-empty (the empty string is coalesced
to the first directory user by `||`); and a stored record missing
`assignedUser`, `priority` or `color` loads with the first user directory
entry's name, priority `P1` (the "High" value) and the first color `blue`. -/
theorem C9_roundtrip_amended (l : List Task) (h : ∀ t ∈ l, t.assignedUser ≠ "") :
    loadTasks (serializeTasks l) = l ∧
    ∀ (id name : String) (category : TaskCategory) (s e : Int),
      loadTask { id := id, name := name, category := category, startDate := s,
                 endDate := e, assignedUser := none, priority := none, color := none }
        = { id := id, name := name, category := category, startDate := s, endDate := e,
            assignedUser := (mockUsers.headD { id := "", name := "" }).name,
            priority := TaskPriority.p1, color := TaskColor.blue } := by
  constructor
  · simp only [loadTasks, serializeTasks, List.map_map]
    conv_rhs => rw [show l = l.map id from (List.map_id l).symm]
    apply List.map_congr_left
    intro t ht
    simp [Function.comp, serializeTask, loadTask, h t ht]
  · intro id name category s e
    simp [loadTask]

/-- C9 amended witness: a concrete task with a non-empty assignee survives the
round trip, and a fully-missing legacy record receives the documented
defaults. -/
theorem C9_roundtrip_amended_witness :
    loadTasks (serializeTasks
        [{ id := "a", name := "n", category := TaskCategory.review,
           startDate := daysFromCivil 2024 6 10, endDate := daysFromCivil 2024 6 12,
           assignedUser := "Jane Smith", priority := TaskPriority.p0,
           color := TaskColor.teal }])
      = [{ id := "a", name := "n", category := TaskCategory.review,
           startDate := daysFromCivil 2024 6 10, endDate := daysFromCivil 2024 6 12,
           assignedUser := "Jane Smith", priority := TaskPriority.p0,
           color := TaskColor.teal }] ∧
    loadTask { id := "old", name := "legacy", category := TaskCategory.todo,
               startDate := 0, endDate := 3, assignedUser := none, priority := none,
               color := none }
      = { id := "old", name := "legacy", category := TaskCategory.todo,
          startDate := 0, endDate := 3,
          assignedUser := (mockUsers.headD { id := "", name := "" }).name,
          priority := TaskPriority.p1, color := TaskColor.blue } := by
  have h := C9_roundtrip_amended
    [{ id := "a", name := "n", category := TaskCategory.review,
       startDate := daysFromCivil 2024 6 10, endDate := daysFromCivil 2024 6 12,
       assignedUser := "Jane Smith", priority := TaskPriority.p0,
       color := TaskColor.teal }]
    (by decide)
  exact ⟨h.1, h.2 "old" "legacy" TaskCategory.todo 0 3⟩

/-- Every month has at least one day: its first day number is at most its last. -/
lemma monthStart_le_monthEnd (y m : Int) (h1 : 1 ≤ m) (h2 : m ≤ 12) :
    monthStart y m ≤ monthEnd y m := by
  obtain ⟨q, r, hy, hr0, hr1⟩ : ∃ q r : Int, y - 1 = 400 * q + r ∧ 0 ≤ r ∧ r < 400 :=
    ⟨(y - 1) / 400, (y - 1) % 400, by omega, by omega, by omega⟩
  have e1 : (y - 1) / 400 = q := by omega
  by_cases hr : r = 399
  · have e2 : y / 400 = q + 1 := by omega
    unfold monthStart monthEnd daysFromCivil
    interval_cases m <;> norm_num [e1, e2] <;> omega
  · have e2 : y / 400 = q := by omega
    unfold monthStart monthEnd daysFromCivil
    interval_cases m <;> norm_num [e1, e2] <;> omega

lemma daysFrom_mem (n : Nat) : ∀ s d : Int, d ∈ daysFrom s n ↔ s ≤ d ∧ d < s + n := by
  induction n with
  | zero =>
      intro s d
      simp only [daysFrom, List.not_mem_nil, false_iff, Nat.cast_zero]
      omega
  | succ k ih =>
      intro s d
      simp only [daysFrom, List.mem_cons, ih (s + 1)]
      push_cast
      constructor
      · intro h
        rcases h with h | h
        · omega
        · omega
      · intro h
        omega

lemma daysFrom_length (n : Nat) : ∀ s : Int, (daysFrom s n).length = n := by
  induction n with
  | zero => intro s; rfl
  | succ k ih => intro s; simp [daysFrom, ih]

lemma daysFrom_getD (n : Nat) : ∀ (s : Int) (i : Nat), i < n →
    (daysFrom s n).getD i 0 = s + i := by
  induction n with
  | zero => intro s i h; exact absurd h (Nat.not_lt_zero i)
  | succ k ih =>
      intro s i h
      cases i with
      | zero => simp [daysFrom]
      | succ j =>
          simp only [daysFrom, List.getD_cons_succ]
          rw [ih (s + 1) j (by omega)]
          push_cast
          ring

lemma eachDayOfInterval_mem (s e d : Int) :
    d ∈ eachDayOfInterval s e ↔ s ≤ d ∧ d ≤ e := by
  rw [eachDayOfInterval, daysFrom_mem]
  omega

lemma eachDayOfInterval_length (s e : Int) :
    (eachDayOfInterval s e).length = (e - s + 1).toNat := by
  rw [eachDayOfInterval, daysFrom_length]

lemma eachDayOfInterval_getD (s e : Int) (i : Nat) (h : (i : Int) < e - s + 1) :
    (eachDayOfInterval s e).getD i 0 = s + i := by
  rw [eachDayOfInterval]
  exact daysFrom_getD _ s i (by omega)

lemma chunks7_join : ∀ (n : Nat) (l : List Int), l.length ≤ n → (chunks7 l).flatten = l := by
  intro n
  induction n with
  | zero =>
      intro l h
      rw [List.length_eq_zero.mp (Nat.le_zero.mp h)]
      simp [chunks7]
  | succ k ih =>
      intro l h
      cases l with
      | nil => simp [chunks7]
      | cons a t =>
          simp only [chunks7, List.flatten_cons]
          rw [ih (t.drop 6) (by simp only [List.length_drop]; simp only [List.length_cons] at h; omega)]
          simp [List.cons_append, List.take_append_drop]

lemma chunks7_length : ∀ (n : Nat) (l : List Int), l.length ≤ n → 7 ∣ l.length →
    ∀ w ∈ chunks7 l, w.length = 7 := by
  intro n
  induction n with
  | zero =>
      intro l h hd w hw
      rw [List.length_eq_zero.mp (Nat.le_zero.mp h)] at hw
      simp [chunks7] at hw
  | succ k ih =>
      intro l h hd w hw
      cases l with
      | nil => simp [chunks7] at hw
      | cons a t =>
          simp only [chunks7, List.mem_cons] at hw
          simp only [List.length_cons] at h hd
          rcases hw with hw | hw
          · subst hw
            simp only [List.length_cons, List.length_take]
            omega
          · exact ih (t.drop 6) (by simp only [List.length_drop]; omega)
              (by simp only [List.length_drop]; omega) w hw

/-- C7: for every anchor month, the calendar day sequence runs from the Sunday
on or before the month's first day through the Saturday on or after its last
day (consecutive days, step one), its length is a multiple of 7, the week
split is a partition into rows of exactly 7 whose concatenation restores the
sequence, and when the month's first day is a Wednesday the grid starts exactly
three days earlier, on the prior Sunday. -/
theorem C7_calendar_grid (y m : Int) (h1 : 1 ≤ m) (h2 : m ≤ 12) :
    dayOfWeek (startOfWeek (monthStart y m)) = 0 ∧
    startOfWeek (monthStart y m) ≤ monthStart y m ∧
    monthStart y m - startOfWeek (monthStart y m) ≤ 6 ∧
    dayOfWeek (endOfWeek (monthEnd y m)) = 6 ∧
    monthEnd y m ≤ endOfWeek (monthEnd y m) ∧
    endOfWeek (monthEnd y m) - monthEnd y m ≤ 6 ∧
    (∀ d : Int, d ∈ calendarDays y m ↔
      startOfWeek (monthStart y m) ≤ d ∧ d ≤ endOfWeek (monthEnd y m)) ∧
    (∀ i : Nat, i + 1 < (calendarDays y m).length →
      (calendarDays y m).getD (i + 1) 0 = (calendarDays y m).getD i 0 + 1) ∧
    7 ∣ (calendarDays y m).length ∧
    (calendarWeeks y m).flatten = calendarDays y m ∧
    (∀ w ∈ calendarWeeks y m, w.length = 7) ∧
    (dayOfWeek (monthStart y m) = 3 →
      startOfWeek (monthStart y m) = monthStart y m - 3) := by
  have hse := monthStart_le_monthEnd y m h1 h2
  have hlen : (calendarDays y m).length
      = (endOfWeek (monthEnd y m) - startOfWeek (monthStart y m) + 1).toNat := by
    rw [calendarDays, eachDayOfInterval_length]
  refine ⟨?_, ?_, ?_, ?_, ?_, ?_, ?_, ?_, ?_, ?_, ?_, ?_⟩
  · simp only [dayOfWeek, startOfWeek]; omega
  · simp only [startOfWeek, dayOfWeek]; omega
  · simp only [startOfWeek, dayOfWeek]; omega
  · simp only [dayOfWeek, endOfWeek, startOfWeek]; omega
  · simp only [endOfWeek, startOfWeek, dayOfWeek]; omega
  · simp only [endOfWeek, startOfWeek, dayOfWeek]; omega
  · intro d
    rw [calendarDays]
    exact eachDayOfInterval_mem _ _ d
  · intro i hi
    rw [hlen] at hi
    have hb : (endOfWeek (monthEnd y m)) - (startOfWeek (monthStart y m)) + 1 ≥ 0 := by
      simp only [endOfWeek, startOfWeek, dayOfWeek]
      omega
    rw [calendarDays, eachDayOfInterval_getD _ _ (i + 1) (by push_cast; omega),
        eachDayOfInterval_getD _ _ i (by omega)]
    push_cast
    ring
  · rw [hlen]
    simp only [endOfWeek, startOfWeek, dayOfWeek]
    omega
  · rw [calendarWeeks]
    exact chunks7_join (calendarDays y m).length _ le_rfl
  · rw [calendarWeeks]
    refine chunks7_length (calendarDays y m).length _ le_rfl ?_
    rw [hlen]
    simp only [endOfWeek, startOfWeek, dayOfWeek]
    omega
  · intro hw
    simp only [dayOfWeek] at hw
    simp only [startOfWeek, dayOfWeek, hw]

/-- C7 witness: May 2024, whose first day (2024-05-01) is a Wednesday — the
grid starts on the prior Sunday 2024-04-28, contains 2024-04-28 and the
padded 2024-06-01 (the Saturday after the month's last day), and its length
is a multiple of 7. -/
theorem C7_calendar_grid_witness :
    dayOfWeek (monthStart 2024 5) = 3 ∧
    startOfWeek (monthStart 2024 5) = monthStart 2024 5 - 3 ∧
    daysFromCivil 2024 4 28 ∈ calendarDays 2024 5 ∧
    daysFromCivil 2024 6 1 ∈ calendarDays 2024 5 ∧
    7 ∣ (calendarDays 2024 5).length := by
  have h := C7_calendar_grid 2024 5 (by norm_num) (by norm_num)
  refine ⟨by decide, h.2.2.2.2.2.2.2.2.2.2.2 (by decide), ?_, ?_, h.2.2.2.2.2.2.2.2.1⟩
  · exact (h.2.2.2.2.2.2.1 (daysFromCivil 2024 4 28)).mpr (by decide)
  · exact (h.2.2.2.2.2.2.1 (daysFromCivil 2024 6 1)).mpr (by decide)

lemma findIndexSameDay_daysFrom (n : Nat) : ∀ s d : Int,
    findIndexSameDay (daysFrom s n) d = if s ≤ d ∧ d < s + n then d - s else -1 := by
  induction n with
  | zero =>
      intro s d
      simp only [daysFrom, findIndexSameDay, Nat.cast_zero]
      rw [if_neg (by omega)]
  | succ k ih =>
      intro s d
      simp only [daysFrom, findIndexSameDay, ih (s + 1)]
      push_cast
      split_ifs <;> omega

lemma weekDaysOf_eq (w : Int) : weekDaysOf w = daysFrom w 7 := by
  have h : (w + 6 - w + 1 : Int) = 7 := by ring
  rw [weekDaysOf, eachDayOfInterval, h]
  rfl

lemma findIndexSameDay_week (w d : Int) :
    findIndexSameDay (weekDaysOf w) d = if w ≤ d ∧ d ≤ w + 6 then d - w else -1 := by
  rw [weekDaysOf_eq, findIndexSameDay_daysFrom]
  push_cast
  split_ifs <;> omega

lemma weekDaysOf_getD6 (w : Int) : (weekDaysOf w).getD 6 0 = w + 6 := by
  rw [weekDaysOf_eq, daysFrom_getD 7 w 6 (by norm_num)]
  norm_num

/-- C8: a task appears in a week's list iff it is in the filtered list and its
interval meets the week; its strip clips to
`[max(startDate, weekStart), min(endDate, weekEnd)]` with 0-based column
indices inside `0..6`, geometry `leftPercent = startIndex/7*100`,
`widthPercent = (endIndex-startIndex+1)/7*100` and vertical offset
`25 + 31 * lane` where the lane is the task's ordinal position in the week's
list (the week list is an order-preserving sublist of the filtered list); a
task whose interval misses the week renders nothing. -/
theorem C8_week_projection (t : Task) (w : Int) (i : Nat) (filtered : List Task)
    (hdates : t.startDate ≤ t.endDate) :
    (t ∈ getTasksForWeek filtered w ↔
      t ∈ filtered ∧ t.startDate ≤ w + 6 ∧ w ≤ t.endDate) ∧
    List.Sublist (getTasksForWeek filtered w) filtered ∧
    (t.startDate ≤ w + 6 ∧ w ≤ t.endDate →
      renderStrip t w i = some
        { taskStart := max t.startDate w, taskEnd := min t.endDate (w + 6),
          startDayIndex := max t.startDate w - w,
          endDayIndex := min t.endDate (w + 6) - w,
          leftPercent := ((max t.startDate w - w : Int) : ℚ) / 7 * 100,
          widthPercent :=
            (((min t.endDate (w + 6) - w) - (max t.startDate w - w) + 1 : Int) : ℚ) / 7 * 100,
          topOffset := 25 + (i : Int) * 31 } ∧
      0 ≤ max t.startDate w - w ∧
      max t.startDate w - w ≤ min t.endDate (w + 6) - w ∧
      min t.endDate (w + 6) - w ≤ 6) ∧
    (¬ (t.startDate ≤ w + 6 ∧ w ≤ t.endDate) → renderStrip t w i = none) := by
  refine ⟨?_, List.filter_sublist filtered, ?_, ?_⟩
  · simp only [getTasksForWeek, List.mem_filter, List.any_eq_true, Bool.and_eq_true,
      decide_eq_true_eq]
    constructor
    · rintro ⟨hmem, day, hday, hd1, hd2⟩
      have hb := (eachDayOfInterval_mem w (w + 6) day).mp hday
      exact ⟨hmem, by omega, by omega⟩
    · rintro ⟨hmem, hb1, hb2⟩
      refine ⟨hmem, max t.startDate w, ?_, by omega, by omega⟩
      exact (eachDayOfInterval_mem w (w + 6) (max t.startDate w)).mpr (by omega)
  · intro h
    have hs := findIndexSameDay_week w (max t.startDate w)
    have he := findIndexSameDay_week w (min t.endDate (w + 6))
    rw [if_pos (by omega)] at hs
    rw [if_pos (by omega)] at he
    simp only [renderStrip, weekDaysOf_getD6, hs, he]
    rw [if_neg (by omega)]
    refine ⟨?_, by omega, by omega, by omega⟩
    simp only [Option.some.injEq, Strip.mk.injEq]
    exact ⟨trivial, trivial, trivial, trivial, trivial, trivial, by ring⟩
  · intro h
    simp only [renderStrip, weekDaysOf_getD6, findIndexSameDay_week]
    rw [if_pos]
    rcases not_and_or.mp h with h1 | h1
    · left
      rw [if_neg (by omega)]
    · right
      rw [if_neg (by omega)]

/-- C8 witness: task 2024-06-10 … 2024-06-12 in the week starting Sunday
2024-06-09, as the second entry (lane 1) of the week's list: columns 1..3,
`leftPercent = 1/7*100`, `widthPercent = 3/7*100`, `topOffset = 56`. -/
theorem C8_week_projection_witness :
    renderStrip
        { id := "a", name := "n", category := TaskCategory.todo,
          startDate := daysFromCivil 2024 6 10, endDate := daysFromCivil 2024 6 12,
          assignedUser := "John Doe", priority := TaskPriority.p1,
          color := TaskColor.blue }
        (daysFromCivil 2024 6 9) 1
      = some
        { taskStart := daysFromCivil 2024 6 10, taskEnd := daysFromCivil 2024 6 12,
          startDayIndex := 1, endDayIndex := 3,
          leftPercent := (1 : ℚ) / 7 * 100, widthPercent := (3 : ℚ) / 7 * 100,
          topOffset := 56 } := by
  have h := ((C8_week_projection
    { id := "a", name := "n", category := TaskCategory.todo,
      startDate := daysFromCivil 2024 6 10, endDate := daysFromCivil 2024 6 12,
      assignedUser := "John Doe", priority := TaskPriority.p1, color := TaskColor.blue }
    (daysFromCivil 2024 6 9) 1 [] (by decide)).2.2.1 (by decide)).1
  rw [h]
  have e3 : ((min (daysFromCivil 2024 6 12) (daysFromCivil 2024 6 9 + 6)
        - daysFromCivil 2024 6 9)
      - (max (daysFromCivil 2024 6 10) (daysFromCivil 2024 6 9) - daysFromCivil 2024 6 9)
      + 1 : Int) = 3 := by decide
  have e1 : (max (daysFromCivil 2024 6 10) (daysFromCivil 2024 6 9)
      - daysFromCivil 2024 6 9 : Int) = 1 := by decide
  have e2 : (min (daysFromCivil 2024 6 12) (daysFromCivil 2024 6 9 + 6)
      - daysFromCivil 2024 6 9 : Int) = 3 := by decide
  have e4 : (max (daysFromCivil 2024 6 10) (daysFromCivil 2024 6 9) : Int)
      = daysFromCivil 2024 6 10 := by decide
  have e5 : (min (daysFromCivil 2024 6 12) (daysFromCivil 2024 6 9 + 6) : Int)
      = daysFromCivil 2024 6 12 := by decide
  rw [e3, e1, e2, e4, e5]
  simp only [Option.some.injEq, Strip.mk.injEq]
  norm_num

end Theorems

end TaskPlanner
